import Mathlib

/-!
Verification of the azerothcore-web-ah auction-house dashboard (main.go).

The Go program serves four read-only JSON endpoints over an AzerothCore
character database.  We embed the data model (the four tables the SQL
queries touch), the four query pipelines (listing, stats, search, sellers),
the page-parameter parsing, and the time-remaining formatter, and prove the
frozen claims about them.

Conventions of the embedding:
* a database is a snapshot of the four tables as lists of rows;
* `now` is the value of `UNIX_TIMESTAMP()` at query execution;
* SQL `LEFT JOIN` becomes an `Option`-valued lookup by key;
* a NULL scanned into a Go `int` is a scan error: the row is skipped in
  the listing/search loops (`log` + `continue` in the Go code) and aborts
  the single-row stats scan;
* MySQL `LIKE '%t%'` on the default case-insensitive collation becomes
  case-insensitive substring containment (terms without wildcards);
* `ORDER BY` becomes a stable `mergeSort` by the ordering columns.
-/

/-- One row of the `auctionhouse` table (all columns are non-NULL ints). -/
structure AuctionRow where
  id : Int
  houseid : Int
  itemguid : Int
  itemowner : Int
  buyoutprice : Int
  time : Int
  buyguid : Int
  lastbid : Int
  startbid : Int
  deposit : Int
deriving DecidableEq, Repr

/-- One row of the `item_instance` table (the columns the queries read). -/
structure ItemInstanceRow where
  guid : Int
  itemEntry : Int
  count : Int
deriving DecidableEq, Repr

/-- One row of the `characters` table (the columns the queries read);
`name` is a non-NULL column. -/
structure CharacterRow where
  guid : Int
  name : String
deriving DecidableEq, Repr

/-- One row of the `acore_world.item_template` table (the columns read). -/
structure ItemTemplateRow where
  entry : Int
  name : String
  quality : Int
  itemLevel : Int
deriving DecidableEq, Repr

/-- A snapshot of the backing store at query time. -/
structure Db where
  auctionhouse : List AuctionRow
  item_instance : List ItemInstanceRow
  characters : List CharacterRow
  item_template : List ItemTemplateRow
deriving Repr

/-- `LEFT JOIN characters c ON ah.itemowner = c.guid`. -/
def findChar (db : Db) (g : Int) : Option CharacterRow :=
  db.characters.find? (fun c => c.guid == g)

/-- `LEFT JOIN item_instance ii ON ah.itemguid = ii.guid`. -/
def findInstance (db : Db) (g : Int) : Option ItemInstanceRow :=
  db.item_instance.find? (fun ii => ii.guid == g)

/-- `LEFT JOIN acore_world.item_template it ON ii.itemEntry = it.entry`. -/
def findTemplate (db : Db) (e : Int) : Option ItemTemplateRow :=
  db.item_template.find? (fun it => it.entry == e)

/-- The item-template row reached through both joins from an auction row. -/
def resolvedTemplate (db : Db) (a : AuctionRow) : Option ItemTemplateRow :=
  (findInstance db a.itemguid).bind (fun ii => findTemplate db ii.itemEntry)

/-- The liveness predicate `ah.time > UNIX_TIMESTAMP()` of all four queries. -/
def liveB (now : Int) (a : AuctionRow) : Bool :=
  decide (now < a.time)

/-- `ORDER BY ah.time ASC` comparison. -/
def timeLe (a b : AuctionRow) : Bool :=
  decide (a.time ≤ b.time)

/-- The live auction rows in `ORDER BY ah.time ASC` order. -/
def sortedLive (db : Db) (now : Int) : List AuctionRow :=
  (db.auctionhouse.filter (liveB now)).mergeSort timeLe

/-- `formatTimeLeft` from main.go (Go `/` and `%` truncate toward zero). -/
def formatTimeLeft (seconds : Int) : String :=
  if seconds ≤ 0 then "Expired"
  else
    let days := seconds.tdiv 86400
    let hours := (seconds.tmod 86400).tdiv 3600
    let minutes := (seconds.tmod 3600).tdiv 60
    if days > 0 then toString days ++ "d " ++ toString hours ++ "h"
    else if hours > 0 then toString hours ++ "h " ++ toString minutes ++ "m"
    else toString minutes ++ "m"

/-- The view model built per row (the Go `AuctionItem` struct). -/
structure AuctionItem where
  id : Int
  houseId : Int
  itemGuid : Int
  itemOwner : Int
  buyoutPrice : Int
  time : Int
  buyGuid : Int
  lastBid : Int
  startBid : Int
  deposit : Int
  itemEntry : Int
  itemName : String
  ownerName : String
  count : Int
  quality : Int
  itemLevel : Int
  timeLeft : String
deriving DecidableEq, Repr

/--
One iteration of the `rows.Next()` loop of `handleGetAuctions` /
`handleSearch`: `rows.Scan` followed by the time-left computation.

The SQL selects `ii.itemEntry, ii.count` without COALESCE, so when the
`item_instance` join misses they are NULL; scanning NULL into a Go `int`
fails and the loop does `log` + `continue`, dropping the row — hence the
`Option`.  `c.name`, `it.name`, `it.Quality`, `it.ItemLevel` are wrapped
in COALESCE, so a missed join there yields the placeholder instead.
-/
def scanRow (db : Db) (now : Int) (a : AuctionRow) : Option AuctionItem :=
  match findInstance db a.itemguid with
  | none => none
  | some ii =>
    let it := findTemplate db ii.itemEntry
    let c := findChar db a.itemowner
    let tl := a.time - now
    some {
      id := a.id
      houseId := a.houseid
      itemGuid := a.itemguid
      itemOwner := a.itemowner
      buyoutPrice := a.buyoutprice
      time := a.time
      buyGuid := a.buyguid
      lastBid := a.lastbid
      startBid := a.startbid
      deposit := a.deposit
      itemEntry := ii.itemEntry
      count := ii.count
      ownerName := match c with
        | some ch => ch.name
        | none => "Unknown"
      itemName := match it with
        | some t => t.name
        | none => "Unknown Item"
      quality := match it with
        | some t => t.quality
        | none => 0
      itemLevel := match it with
        | some t => t.itemLevel
        | none => 0
      timeLeft := if tl > 0 then formatTimeLeft tl else "Expired" }

/-- Digit string to number; `none` when empty or any char is not a digit. -/
def digitsToNat (cs : List Char) : Option Nat :=
  match cs with
  | [] => none
  | _ =>
    cs.foldl (fun acc c =>
      match acc with
      | none => none
      | some n => if c.isDigit then some (n * 10 + (c.toNat - 48)) else none)
      (some 0)

/--
Go `strconv.Atoi` as used in `page, _ := strconv.Atoi(...)`: the error is
discarded, and on any syntax error (empty string included — the missing
query parameter reads as "") Atoi yields 0.
-/
def atoi (s : String) : Int :=
  match s.toList with
  | '-' :: rest =>
    match digitsToNat rest with
    | some n => -(n : Int)
    | none => 0
  | '+' :: rest =>
    match digitsToNat rest with
    | some n => (n : Int)
    | none => 0
  | l =>
    match digitsToNat l with
    | some n => (n : Int)
    | none => 0

/-- The `{auctions, page, limit}` body of `/api/auctions`. -/
structure AuctionsResponse where
  auctions : List AuctionItem
  page : Int
  limit : Int
deriving DecidableEq, Repr

/--
`handleGetAuctions`: parse `page` (default 1 for anything below 1), run the
listing query — live rows ordered by soonest expiry, `LIMIT 50 OFFSET
(page-1)*50` — then scan each row, skipping rows whose scan fails.
-/
def handleGetAuctions (db : Db) (now : Int) (pageParam : String) :
    AuctionsResponse :=
  let page0 := atoi pageParam
  let page := if page0 < 1 then 1 else page0
  let offset := ((page - 1) * 50).toNat
  let rows := ((sortedLive db now).drop offset).take 50
  { auctions := rows.filterMap (scanRow db now)
    page := page
    limit := 50 }

/-- The Go `AuctionHouseStats` struct. -/
structure AuctionHouseStats where
  totalItems : Int
  totalValue : Int
  activeBids : Int
  uniqueOwners : Int
  uniqueItems : Int
deriving DecidableEq, Repr

/-- Outcome of a stats request: 200 with a body, or 500 with a message. -/
inductive StatsResult where
  | ok (stats : AuctionHouseStats)
  | serverError (msg : String)
deriving DecidableEq, Repr

/-- `SUM(ah.buyoutprice)` over the live rows: NULL (`none`) on zero rows. -/
def statsTotalValue (db : Db) (now : Int) : Option Int :=
  match db.auctionhouse.filter (liveB now) with
  | [] => none
  | l => some ((l.map (fun a => a.buyoutprice)).sum)

/--
The single-row scan of the primary stats query: COUNT(*),
SUM(buyoutprice), COUNT(DISTINCT itemowner), COUNT(DISTINCT ii.itemEntry)
over the live rows.  `COUNT(DISTINCT ii.itemEntry)` ignores the NULLs a
missed `item_instance` join produces.  Scanning the NULL sum into the Go
`int` field `TotalValue` fails, so the scan yields `none`; `ActiveBids`
stays at its zero default, to be filled by the secondary query.
-/
def statsPrimaryScan (db : Db) (now : Int) : Option AuctionHouseStats :=
  let live := db.auctionhouse.filter (liveB now)
  match statsTotalValue db now with
  | none => none
  | some v =>
    some {
      totalItems := live.length
      totalValue := v
      activeBids := 0
      uniqueOwners := (live.map (fun a => a.itemowner)).dedup.length
      uniqueItems :=
        ((live.filterMap
          (fun a => (findInstance db a.itemguid).map
            (fun ii => ii.itemEntry))).dedup).length }

/-- `SELECT COUNT(*) FROM auctionhouse WHERE lastbid > 0 AND time > UNIX_TIMESTAMP()`. -/
def countActiveBids (db : Db) (now : Int) : Int :=
  (db.auctionhouse.filter (fun a => decide (0 < a.lastbid) && liveB now a)).length

/--
`handleGetStats`: run the primary aggregate query (500 on scan failure),
then the secondary bid-count query; `bidQueryFails` models the latter
failing with a database error, which is only logged — the zero default of
`ActiveBids` is kept and the primary stats are still returned.
-/
def handleGetStats (db : Db) (now : Int) (bidQueryFails : Bool) : StatsResult :=
  match statsPrimaryScan db now with
  | none => .serverError "sql: Scan error: converting NULL to int is unsupported"
  | some s =>
    if bidQueryFails then .ok s
    else .ok { s with activeBids := countActiveBids db now }

/-- `a` is a prefix of the second list. -/
def isPrefixL (needle : List Char) : List Char → Bool :=
  fun hay =>
    match needle, hay with
    | [], _ => true
    | _ :: _, [] => false
    | a :: as, b :: bs => a == b && isPrefixL as bs

/-- `needle` occurs contiguously inside `hay`. -/
def isSubL (needle : List Char) : List Char → Bool
  | [] => isPrefixL needle []
  | c :: t => isPrefixL needle (c :: t) || isSubL needle t

/-- MySQL `hay LIKE '%needle%'` under the default case-insensitive
collation, for needles without wildcard characters. -/
def containsCI (hay needle : String) : Bool :=
  isSubL (needle.toList.map Char.toLower) (hay.toList.map Char.toLower)

/--
The WHERE clause `(it.name LIKE ? OR c.name LIKE ?)` of the search query.
It reads the raw joined columns, before COALESCE: when a join misses the
column is NULL, any `LIKE` on it is NULL, and the disjunct does not hold.
-/
def searchMatch (db : Db) (q : String) (a : AuctionRow) : Bool :=
  (match resolvedTemplate db a with
   | some it => containsCI it.name q
   | none => false) ||
  (match findChar db a.itemowner with
   | some c => containsCI c.name q
   | none => false)

/-- The search query: live and matching rows by soonest expiry, `LIMIT
100`, each row scanned as in the listing (scan failures skipped). -/
def searchAuctions (db : Db) (now : Int) (q : String) : List AuctionItem :=
  ((((db.auctionhouse.filter
      (fun a => liveB now a && searchMatch db q a)).mergeSort timeLe).take
      100).filterMap (scanRow db now))

/-- Outcome of `/api/search`: 400 without touching the database, or 200. -/
inductive SearchResult where
  | badRequest (msg : String)
  | ok (auctions : List AuctionItem) (search : String)
deriving DecidableEq, Repr

/-- `handleSearch`: empty `q` is rejected before any query runs. -/
def handleSearch (db : Db) (now : Int) (q : String) : SearchResult :=
  if q = "" then .badRequest "Search term required"
  else .ok (searchAuctions db now q) q

/-- One row of the `/api/sellers` response. -/
structure SellerRow where
  name : String
  totalAuctions : Int
  totalValue : Int
  uniqueItems : Int
deriving DecidableEq, Repr

/-- The live auction rows of owner `o` (one GROUP BY group). -/
def ownerRows (db : Db) (now : Int) (o : Int) : List AuctionRow :=
  db.auctionhouse.filter (fun a => liveB now a && a.itemowner == o)

/-- The GROUP BY keys: owners of live rows that join to a character row
(`AND c.name IS NOT NULL` — `name` is non-NULL, so NULL means a missed
join), in first-appearance order. -/
def sellerOwners (db : Db) (now : Int) : List Int :=
  ((db.auctionhouse.filter
    (fun a => liveB now a && (findChar db a.itemowner).isSome)).map
    (fun a => a.itemowner)).dedup

/-- The aggregate row of one seller group. -/
def sellerOf (db : Db) (now : Int) (o : Int) : SellerRow :=
  let rows := ownerRows db now o
  { name := match findChar db o with
      | some c => c.name
      | none => ""
    totalAuctions := rows.length
    totalValue := (rows.map (fun a => a.buyoutprice)).sum
    uniqueItems :=
      ((rows.filterMap
        (fun a => (findInstance db a.itemguid).map
          (fun ii => ii.itemEntry))).dedup).length }

/-- `ORDER BY total_auctions DESC, total_value DESC`. -/
def sellerLe (x y : SellerRow) : Bool :=
  decide (y.totalAuctions < x.totalAuctions) ||
  (x.totalAuctions == y.totalAuctions && decide (y.totalValue ≤ x.totalValue))

/-- `handleGetSellers`: group live listings by owner (owners without a
character row excluded), order by listing count then value, descending. -/
def handleGetSellers (db : Db) (now : Int) : List SellerRow :=
  ((sellerOwners db now).map (sellerOf db now)).mergeSort sellerLe

/-! ### Sample data for exercising the pipelines on concrete inputs -/

/-- A character row. -/
def exChar : CharacterRow := ⟨7, "Copperfield"⟩

/-- An item-instance row for `exAuction`. -/
def exInstance : ItemInstanceRow := ⟨5, 21, 2⟩

/-- The item template of `exInstance`. -/
def exTemplate : ItemTemplateRow := ⟨21, "Copper Bar", 1, 10⟩

/-- A live (at `now = 0`) auction row with all references present. -/
def exAuction : AuctionRow := ⟨1, 7, 5, 7, 500, 100, 0, 0, 50, 5⟩

/-- A fully-populated snapshot. -/
def exDb : Db := ⟨[exAuction], [exInstance], [exChar], [exTemplate]⟩

/-- The view model the listing builds from `exAuction` at `now = 0`. -/
def exItem : AuctionItem :=
  ⟨1, 7, 5, 7, 500, 100, 0, 0, 50, 5, 21, "Copper Bar", "Copperfield", 2, 1, 10, "1m"⟩

/-- A live auction row whose item-instance reference is dangling. -/
def orphanAuction : AuctionRow := ⟨2, 7, 99, 42, 800, 100, 0, 0, 80, 8⟩

/-- A snapshot holding only `orphanAuction`: all reference tables empty. -/
def orphanDb : Db := ⟨[orphanAuction], [], [], []⟩

/-- A snapshot with no rows at all. -/
def emptyDb : Db := ⟨[], [], [], []⟩

/-- A snapshot with the auction and its item-instance, but no character
and no item-template rows. -/
def bareDb : Db := ⟨[exAuction], [exInstance], [], []⟩

/-- The view model the scan builds from `exAuction` in `bareDb`. -/
def bareItem : AuctionItem :=
  ⟨1, 7, 5, 7, 500, 100, 0, 0, 50, 5, 21, "Unknown Item", "Unknown", 2, 0, 0, "1m"⟩

/-- `COALESCE(it.name, 'Unknown Item')`: the item name the responses
resolve for an auction row. -/
def resolvedItemName (db : Db) (a : AuctionRow) : String :=
  match resolvedTemplate db a with
  | some t => t.name
  | none => "Unknown Item"

/-- The snapshot with every auction row whose owner reference resolves to
NULL (no character row) removed. -/
def ownerPruned (db : Db) : Db :=
  { db with
    auctionhouse := db.auctionhouse.filter
      (fun a => (findChar db a.itemowner).isSome) }

/-! ### Helper lemmas -/

/-- A successful row scan preserves the expiry column. -/
theorem scanRow_time {db : Db} {now : Int} {a : AuctionRow} {x : AuctionItem}
    (h : scanRow db now a = some x) : x.time = a.time := by
  unfold scanRow at h
  cases hfi : findInstance db a.itemguid <;> rw [hfi] at h
  · simp at h
  · simp only [Option.some.injEq] at h
    subst h
    rfl

/-- The row scan succeeds exactly when the item-instance join hits. -/
theorem scanRow_eq_none_iff {db : Db} {now : Int} {a : AuctionRow} :
    scanRow db now a = none ↔ findInstance db a.itemguid = none := by
  unfold scanRow
  cases hfi : findInstance db a.itemguid <;> simp

/-- Membership in the live sorted rows. -/
theorem mem_sortedLive {db : Db} {now : Int} {a : AuctionRow} :
    a ∈ sortedLive db now ↔ a ∈ db.auctionhouse ∧ now < a.time := by
  unfold sortedLive
  rw [List.mem_mergeSort, List.mem_filter]
  simp [liveB]

/-- Every item the search pipeline emits comes from a live, matching row. -/
theorem mem_searchAuctions {db : Db} {now : Int} {q : String} {x : AuctionItem}
    (h : x ∈ searchAuctions db now q) :
    ∃ a, a ∈ db.auctionhouse ∧ now < a.time ∧ searchMatch db q a = true ∧
      scanRow db now a = some x := by
  unfold searchAuctions at h
  obtain ⟨a, ha, hs⟩ := List.mem_filterMap.mp h
  have ha' := List.mem_mergeSort.mp (List.mem_of_mem_take ha)
  obtain ⟨hmem, hcond⟩ := List.mem_filter.mp ha'
  rw [Bool.and_eq_true] at hcond
  obtain ⟨hl, hm⟩ := hcond
  exact ⟨a, hmem, by simpa [liveB] using hl, hm, hs⟩

/-- Every item the listing pipeline emits comes from a live row. -/
theorem mem_handleGetAuctions {db : Db} {now : Int} {p : String} {x : AuctionItem}
    (h : x ∈ (handleGetAuctions db now p).auctions) :
    ∃ a, a ∈ db.auctionhouse ∧ now < a.time ∧ scanRow db now a = some x := by
  simp only [handleGetAuctions] at h
  obtain ⟨a, ha, hs⟩ := List.mem_filterMap.mp h
  have ha' : a ∈ sortedLive db now :=
    List.mem_of_mem_drop (List.mem_of_mem_take ha)
  obtain ⟨hmem, hl⟩ := mem_sortedLive.mp ha'
  exact ⟨a, hmem, hl, hs⟩

/-- Filtering by `q` first does not change a filter by a stronger `p`. -/
theorem filter_filter_of_imp {α : Type} (l : List α) (p q : α → Bool)
    (h : ∀ a, p a = true → q a = true) :
    (l.filter q).filter p = l.filter p := by
  induction l with
  | nil => rfl
  | cons a t ih =>
    by_cases hq : q a = true
    · by_cases hp : p a = true
      · simp [hq, hp, ih]
      · simp [hq, hp, ih]
    · have hp : ¬ p a = true := fun hpa => hq (h a hpa)
      simp [hq, hp, ih]

/-! ### Claims -/

/--
C2: the time-remaining formatter maps a remaining-seconds value to
days+hours when at least one day remains, hours+minutes when under a day
but at least one hour remains, minutes otherwise, and "Expired" for zero
or negative input; in particular 90000 → "1d 1h", 5000 → "1h 23m",
120 → "2m", and every s ≤ 0 → "Expired".
-/
theorem formatTimeLeft_spec :
    (∀ s : Int, s ≤ 0 → formatTimeLeft s = "Expired") ∧
    (∀ s : Int, 86400 ≤ s →
      formatTimeLeft s =
        toString (s.tdiv 86400) ++ "d " ++ toString ((s.tmod 86400).tdiv 3600) ++ "h") ∧
    (∀ s : Int, 3600 ≤ s → s < 86400 →
      formatTimeLeft s =
        toString (s.tdiv 3600) ++ "h " ++ toString ((s.tmod 3600).tdiv 60) ++ "m") ∧
    (∀ s : Int, 0 < s → s < 3600 →
      formatTimeLeft s = toString (s.tdiv 60) ++ "m") ∧
    formatTimeLeft 90000 = "1d 1h" ∧
    formatTimeLeft 5000 = "1h 23m" ∧
    formatTimeLeft 120 = "2m" ∧
    formatTimeLeft 0 = "Expired" := by
  refine ⟨?_, ?_, ?_, ?_, by decide, by decide, by decide, by decide⟩
  · intro s hs
    simp [formatTimeLeft, hs]
  · intro s hs
    have h0 : ¬ s ≤ 0 := by omega
    have hd : 0 < s.tdiv 86400 := by
      rw [Int.tdiv_eq_ediv (by omega) (by norm_num)]
      omega
    simp [formatTimeLeft, h0, hd]
  · intro s h1 h2
    have h0 : ¬ s ≤ 0 := by omega
    have hd : ¬ 0 < s.tdiv 86400 := by
      rw [Int.tdiv_eq_ediv (by omega) (by norm_num)]
      omega
    have hm : s.tmod 86400 = s := by
      rw [Int.tmod_eq_emod (by omega) (by norm_num)]
      omega
    have hh : 0 < s.tdiv 3600 := by
      rw [Int.tdiv_eq_ediv (by omega) (by norm_num)]
      omega
    simp [formatTimeLeft, h0, hd, hm, hh]
  · intro s h1 h2
    have h0 : ¬ s ≤ 0 := by omega
    have hd : ¬ 0 < s.tdiv 86400 := by
      rw [Int.tdiv_eq_ediv (by omega) (by norm_num)]
      omega
    have hm : s.tmod 86400 = s := by
      rw [Int.tmod_eq_emod (by omega) (by norm_num)]
      omega
    have hh : ¬ 0 < s.tdiv 3600 := by
      rw [Int.tdiv_eq_ediv (by omega) (by norm_num)]
      omega
    have hm2 : s.tmod 3600 = s := by
      rw [Int.tmod_eq_emod (by omega) (by norm_num)]
      omega
    simp [formatTimeLeft, h0, hd, hm, hh, hm2]

/-- C2 witness: the "Expired" clause applied at a negative input. -/
theorem formatTimeLeft_spec_witness : formatTimeLeft (-7) = "Expired" :=
  formatTimeLeft_spec.1 (-7) (by norm_num)

/--
C3: for every page parameter that parses to an integer ≥ 1, the
`/api/auctions` response holds at most 50 auctions (the fixed page size
passed as the SQL LIMIT).
-/
theorem handleGetAuctions_page_cap (db : Db) (now : Int) (p : String)
    (h : 1 ≤ atoi p) : (handleGetAuctions db now p).auctions.length ≤ 50 := by
  simp only [handleGetAuctions]
  exact le_trans (List.length_filterMap_le _ _) (List.length_take_le _ _)

/-- C3 witness: the cap at a concrete database and page parameter. -/
theorem handleGetAuctions_page_cap_witness :
    (handleGetAuctions exDb 0 "2").auctions.length ≤ 50 :=
  handleGetAuctions_page_cap exDb 0 "2" (by decide)

/--
C4: a `page` parameter that is missing, non-numeric, or parses below 1
(all of which leave `strconv.Atoi`'s discarded-error result below 1) makes
the handler behave exactly as page 1: same response, and page reported
as 1.
-/
theorem handleGetAuctions_page_default (db : Db) (now : Int) (p : String)
    (h : atoi p < 1) :
    handleGetAuctions db now p = handleGetAuctions db now "1" ∧
    (handleGetAuctions db now p).page = 1 := by
  have h1 : atoi "1" = 1 := by decide
  refine ⟨?_, ?_⟩ <;> simp [handleGetAuctions, h, h1]

/-- C4 witness: the empty (missing) parameter behaves as page 1. -/
theorem handleGetAuctions_page_default_witness :
    handleGetAuctions exDb 0 "" = handleGetAuctions exDb 0 "1" ∧
    (handleGetAuctions exDb 0 "").page = 1 :=
  handleGetAuctions_page_default exDb 0 "" (by decide)

/--
C5: `/api/search` with an empty `q` returns 400 without executing any
database query (the response is independent of the database snapshot and
of the clock), and every non-empty `q` proceeds to the query.
-/
theorem handleSearch_empty_guard :
    (∀ (db : Db) (now : Int),
      handleSearch db now "" = SearchResult.badRequest "Search term required") ∧
    (∀ (db₁ db₂ : Db) (now₁ now₂ : Int),
      handleSearch db₁ now₁ "" = handleSearch db₂ now₂ "") ∧
    (∀ (db : Db) (now : Int) (q : String), q ≠ "" →
      handleSearch db now q = SearchResult.ok (searchAuctions db now q) q) := by
  refine ⟨fun db now => by simp [handleSearch],
    fun db₁ db₂ now₁ now₂ => by simp [handleSearch],
    fun db now q hq => by simp [handleSearch, hq]⟩

/-- C5 witness: a non-empty term reaches the query on a concrete snapshot. -/
theorem handleSearch_empty_guard_witness :
    handleSearch exDb 0 "x" = SearchResult.ok (searchAuctions exDb 0 "x") "x" :=
  handleSearch_empty_guard.2.2 exDb 0 "x" (by decide)

/--
C1: no auction row whose expiry is ≤ the current time appears in a
listing, search, or stats response: every listed or searched item has
`time > now`, and the stats are unchanged when the expired rows are
removed from the snapshot (all three queries carry `time > UNIX_TIMESTAMP()`).
-/
theorem liveness_spec :
    (∀ (db : Db) (now : Int) (p : String),
      ∀ x ∈ (handleGetAuctions db now p).auctions, now < x.time) ∧
    (∀ (db : Db) (now : Int) (q : String) (l : List AuctionItem) (s : String),
      handleSearch db now q = SearchResult.ok l s → ∀ x ∈ l, now < x.time) ∧
    (∀ (db : Db) (now : Int) (b : Bool),
      handleGetStats { db with auctionhouse := db.auctionhouse.filter (liveB now) } now b =
        handleGetStats db now b) := by
  refine ⟨?_, ?_, ?_⟩
  · intro db now p x hx
    obtain ⟨a, _, hl, hs⟩ := mem_handleGetAuctions hx
    rw [scanRow_time hs]
    exact hl
  · intro db now q l s h x hx
    by_cases hq : q = ""
    · simp [handleSearch, hq] at h
    · simp only [handleSearch, if_neg hq, SearchResult.ok.injEq] at h
      obtain ⟨hl, -⟩ := h
      subst hl
      obtain ⟨a, -, hlive, -, hs⟩ := mem_searchAuctions hx
      rw [scanRow_time hs]
      exact hlive
  · intro db now b
    have e1 : (db.auctionhouse.filter (liveB now)).filter (liveB now) =
        db.auctionhouse.filter (liveB now) :=
      filter_filter_of_imp _ _ _ (fun a h => h)
    have e2 : (db.auctionhouse.filter (liveB now)).filter
          (fun a => decide (0 < a.lastbid) && liveB now a) =
        db.auctionhouse.filter (fun a => decide (0 < a.lastbid) && liveB now a) :=
      filter_filter_of_imp _ _ _
        (fun a h => by rw [Bool.and_eq_true] at h; exact h.2)
    have e3 : ∀ g, findInstance
        { db with auctionhouse := db.auctionhouse.filter (liveB now) } g =
        findInstance db g := fun g => rfl
    simp only [handleGetStats, statsPrimaryScan, statsTotalValue, countActiveBids,
      e1, e2, e3]

-- C1 witness: a concrete listed item has a future expiry.
unseal List.merge List.mergeSort in
theorem liveness_spec_witness : (0 : Int) < exItem.time :=
  liveness_spec.1 exDb 0 "1" exItem (by decide)

/--
C6: when the primary stats scan succeeds and the secondary bid-count
query fails, `/api/stats` still answers 200 with the primary stats and
`active_bids` left at its zero default.
-/
theorem handleGetStats_partial (db : Db) (now : Int) (s : AuctionHouseStats)
    (h : statsPrimaryScan db now = some s) :
    handleGetStats db now true = StatsResult.ok s ∧ s.activeBids = 0 := by
  refine ⟨by simp [handleGetStats, h], ?_⟩
  unfold statsPrimaryScan at h
  cases hv : statsTotalValue db now <;> rw [hv] at h
  · simp at h
  · simp only [Option.some.injEq] at h
    subst h
    rfl

/-- C6 witness: the partial-failure path on a concrete snapshot. -/
theorem handleGetStats_partial_witness :
    handleGetStats exDb 0 true = StatsResult.ok ⟨1, 500, 0, 1, 1⟩ ∧
      (⟨1, 500, 0, 1, 1⟩ : AuctionHouseStats).activeBids = 0 :=
  handleGetStats_partial exDb 0 ⟨1, 500, 0, 1, 1⟩ (by decide)

/--
C10: with zero live listings the primary aggregate row has
`SUM(buyoutprice) = NULL`; scanning that NULL into the integer
`total_value` field fails and `/api/stats` answers 500, not an all-zero
stats object.
-/
theorem handleGetStats_empty_500 (db : Db) (now : Int) (b : Bool)
    (h : db.auctionhouse.filter (liveB now) = []) :
    statsTotalValue db now = none ∧
    handleGetStats db now b =
      StatsResult.serverError "sql: Scan error: converting NULL to int is unsupported" := by
  have hv : statsTotalValue db now = none := by
    unfold statsTotalValue
    rw [h]
  refine ⟨hv, ?_⟩
  simp [handleGetStats, statsPrimaryScan, hv]

/-- C10 witness: the empty snapshot hits the NULL-sum 500 path. -/
theorem handleGetStats_empty_500_witness :
    statsTotalValue emptyDb 0 = none ∧
    handleGetStats emptyDb 0 false =
      StatsResult.serverError "sql: Scan error: converting NULL to int is unsupported" :=
  handleGetStats_empty_500 emptyDb 0 false (by decide)

-- C7 counterexample: a live row whose item-instance reference is missing
-- is omitted from the listing response, not returned with placeholders:
-- its NULL `ii.itemEntry`/`ii.count` make the row scan fail and the loop
-- skips the row.
unseal List.merge List.mergeSort in
theorem auctions_missing_instance_cex :
    orphanAuction ∈ orphanDb.auctionhouse ∧ (0 : Int) < orphanAuction.time ∧
    findInstance orphanDb orphanAuction.itemguid = none ∧
    (handleGetAuctions orphanDb 0 "1").auctions = [] := by decide

/--
C7 (amended): a listing-query row whose owner or item-template reference
is missing is still returned, with placeholder values ('Unknown',
'Unknown Item', quality/level 0); but a row whose item-instance reference
is missing fails the row scan (NULL `itemEntry`/`count`) and is skipped,
and the scan fails only then.
-/
theorem auctions_placeholder_spec :
    (∀ (db : Db) (now : Int) (a : AuctionRow) (x : AuctionItem),
      scanRow db now a = some x →
      (findChar db a.itemowner = none → x.ownerName = "Unknown") ∧
      (resolvedTemplate db a = none →
        x.itemName = "Unknown Item" ∧ x.quality = 0 ∧ x.itemLevel = 0)) ∧
    (∀ (db : Db) (now : Int) (a : AuctionRow),
      scanRow db now a = none ↔ findInstance db a.itemguid = none) ∧
    (∀ (db : Db) (now : Int) (p : String) (a : AuctionRow) (x : AuctionItem),
      a ∈ (((sortedLive db now).drop
        (((if atoi p < 1 then 1 else atoi p) - 1) * 50).toNat).take 50) →
      scanRow db now a = some x →
      x ∈ (handleGetAuctions db now p).auctions) := by
  refine ⟨?_, fun db now a => scanRow_eq_none_iff, ?_⟩
  · intro db now a x h
    cases hfi : findInstance db a.itemguid with
    | none =>
      rw [scanRow, hfi] at h
      simp at h
    | some ii =>
      rw [scanRow, hfi] at h
      simp only [Option.some.injEq] at h
      subst h
      constructor
      · intro hc
        simp [hc]
      · intro ht
        have ht' : findTemplate db ii.itemEntry = none := by
          simpa [resolvedTemplate, hfi] using ht
        simp [ht']
  · intro db now p a x ha hs
    simp only [handleGetAuctions]
    exact List.mem_filterMap.mpr ⟨a, ha, hs⟩

-- C7 witness: with the character and item-template tables empty the row
-- is still scanned, with the placeholder owner name.
theorem auctions_placeholder_spec_witness : bareItem.ownerName = "Unknown" :=
  (auctions_placeholder_spec.1 bareDb 0 exAuction bareItem (by decide)).1 (by decide)

-- C8 counterexample: a live listing whose resolved item name is the
-- placeholder "Unknown Item" contains the term "Unknown"
-- case-insensitively, yet the search returns nothing: the WHERE clause
-- compares the raw joined columns, which are NULL here, so no `LIKE`
-- disjunct holds.
unseal List.merge List.mergeSort in
theorem search_resolved_name_cex :
    orphanAuction ∈ orphanDb.auctionhouse ∧ (0 : Int) < orphanAuction.time ∧
    containsCI (resolvedItemName orphanDb orphanAuction) "Unknown" = true ∧
    searchAuctions orphanDb 0 "Unknown" = [] := by decide

/--
C8 (amended): for every non-empty term the search returns only live
listings matched case-insensitively against the raw joined item/owner
names (a listing whose item-template and character references are both
missing matches no term), capped at 100 results; and whenever at most 100
live rows match, every matching row that survives the row scan is
returned.
-/
theorem searchAuctions_spec (db : Db) (now : Int) (q : String) (hq : q ≠ "") :
    (searchAuctions db now q).length ≤ 100 ∧
    (∀ x ∈ searchAuctions db now q, ∃ a, a ∈ db.auctionhouse ∧ now < a.time ∧
      searchMatch db q a = true ∧ scanRow db now a = some x) ∧
    ((db.auctionhouse.filter (fun a => liveB now a && searchMatch db q a)).length ≤ 100 →
      ∀ a, a ∈ db.auctionhouse → now < a.time → searchMatch db q a = true →
      ∀ x, scanRow db now a = some x → x ∈ searchAuctions db now q) := by
  refine ⟨?_, fun x hx => mem_searchAuctions hx, ?_⟩
  · unfold searchAuctions
    exact le_trans (List.length_filterMap_le _ _) (List.length_take_le _ _)
  · intro h100 a ha hl hm x hs
    unfold searchAuctions
    have hlen : ((db.auctionhouse.filter
        (fun a => liveB now a && searchMatch db q a)).mergeSort timeLe).length ≤ 100 := by
      rw [List.length_mergeSort]
      exact h100
    rw [List.take_of_length_le hlen]
    refine List.mem_filterMap.mpr ⟨a, ?_, hs⟩
    exact List.mem_mergeSort.mpr (List.mem_filter.mpr ⟨ha, by simp [liveB, hl, hm]⟩)

-- C8 witness: the completeness clause applied on a concrete snapshot; the
-- match is case-insensitive ("copper" finds "Copper Bar").
theorem searchAuctions_spec_witness : exItem ∈ searchAuctions exDb 0 "copper" :=
  (searchAuctions_spec exDb 0 "copper" (by decide)).2.2 (by decide)
    exAuction (by decide) (by decide) (by decide) exItem (by decide)


/--
C9: `/api/sellers` groups live listings by owner — every returned seller
is an owner with a character row, with listing count and total value
aggregated over exactly that owner's live listings, and every live
listing with a character-backed owner contributes a seller; listings
whose owner reference resolves to NULL are excluded (removing them from
the snapshot changes nothing); and the rows come ordered by listing count
descending, ties broken by total value descending.
-/
theorem handleGetSellers_spec (db : Db) (now : Int) :
    (∀ s ∈ handleGetSellers db now, ∃ o c, findChar db o = some c ∧
      s.name = c.name ∧
      s.totalAuctions = ((db.auctionhouse.filter
        (fun a => liveB now a && a.itemowner == o)).length : Int) ∧
      s.totalValue = ((db.auctionhouse.filter
        (fun a => liveB now a && a.itemowner == o)).map
          (fun a => a.buyoutprice)).sum) ∧
    (∀ a ∈ db.auctionhouse, liveB now a = true →
      ∀ c, findChar db a.itemowner = some c →
      ∃ s ∈ handleGetSellers db now, s.name = c.name) ∧
    (handleGetSellers (ownerPruned db) now = handleGetSellers db now) ∧
    List.Pairwise (fun x y => y.totalAuctions < x.totalAuctions ∨
      (x.totalAuctions = y.totalAuctions ∧ y.totalValue ≤ x.totalValue))
      (handleGetSellers db now) := by
  refine ⟨?_, ?_, ?_, ?_⟩
  · intro s hs
    unfold handleGetSellers at hs
    obtain ⟨o, ho, rfl⟩ := List.mem_map.mp (List.mem_mergeSort.mp hs)
    unfold sellerOwners at ho
    rw [List.mem_dedup] at ho
    obtain ⟨a, ha, hao⟩ := List.mem_map.mp ho
    obtain ⟨hmem, hcond⟩ := List.mem_filter.mp ha
    rw [Bool.and_eq_true] at hcond
    obtain ⟨hl, hsome⟩ := hcond
    obtain ⟨c, hc⟩ := Option.isSome_iff_exists.mp hsome
    have hco : findChar db o = some c := by rw [← hao]; exact hc
    exact ⟨o, c, hco, by simp [sellerOf, hco], rfl, rfl⟩
  · intro a ha hl c hc
    have ho : a.itemowner ∈ sellerOwners db now := by
      unfold sellerOwners
      rw [List.mem_dedup]
      exact List.mem_map.mpr ⟨a, List.mem_filter.mpr ⟨ha, by simp [hl, hc]⟩, rfl⟩
    refine ⟨sellerOf db now a.itemowner, ?_, by simp [sellerOf, hc]⟩
    unfold handleGetSellers
    exact List.mem_mergeSort.mpr (List.mem_map.mpr ⟨a.itemowner, ho, rfl⟩)
  · have echar : ∀ g, findChar (ownerPruned db) g = findChar db g :=
      fun g => rfl
    have einst : ∀ g, findInstance (ownerPruned db) g = findInstance db g :=
      fun g => rfl
    have eah : (ownerPruned db).auctionhouse =
        db.auctionhouse.filter (fun a => (findChar db a.itemowner).isSome) :=
      rfl
    have eOwners : sellerOwners (ownerPruned db) now = sellerOwners db now := by
      unfold sellerOwners
      simp only [echar, eah]
      rw [filter_filter_of_imp _ _ _
        (fun a h => by rw [Bool.and_eq_true] at h; exact h.2)]
    have hmem_some : ∀ o ∈ sellerOwners db now, (findChar db o).isSome = true := by
      intro o ho
      unfold sellerOwners at ho
      rw [List.mem_dedup] at ho
      obtain ⟨a, ha, hao⟩ := List.mem_map.mp ho
      have hcond := (List.mem_filter.mp ha).2
      rw [Bool.and_eq_true] at hcond
      rw [← hao]
      exact hcond.2
    have key : ∀ o, (findChar db o).isSome = true →
        sellerOf (ownerPruned db) now o = sellerOf db now o := by
      intro o hso
      have er : (db.auctionhouse.filter
          (fun a => (findChar db a.itemowner).isSome)).filter
            (fun a => liveB now a && a.itemowner == o) =
          db.auctionhouse.filter (fun a => liveB now a && a.itemowner == o) := by
        refine filter_filter_of_imp _ _ _ (fun a h => ?_)
        rw [Bool.and_eq_true] at h
        have hao : a.itemowner = o := by
          have h2 := h.2
          rwa [beq_iff_eq] at h2
        rw [hao]
        exact hso
      simp only [sellerOf, ownerRows, echar, einst, eah, er]
    unfold handleGetSellers
    rw [eOwners, List.map_congr_left (fun o ho => key o (hmem_some o ho))]
  · unfold handleGetSellers
    have htrans : ∀ x y z : SellerRow,
        sellerLe x y → sellerLe y z → sellerLe x z := by
      intro x y z h1 h2
      simp only [sellerLe, Bool.or_eq_true, Bool.and_eq_true,
        decide_eq_true_eq, beq_iff_eq] at h1 h2 ⊢
      omega
    have htotal : ∀ x y : SellerRow, sellerLe x y || sellerLe y x := by
      intro x y
      simp only [sellerLe, Bool.or_eq_true, Bool.and_eq_true,
        decide_eq_true_eq, beq_iff_eq]
      omega
    refine List.Pairwise.imp ?_
      (List.sorted_mergeSort htrans htotal
        ((sellerOwners db now).map (sellerOf db now)))
    intro x y hxy
    simpa only [sellerLe, Bool.or_eq_true, Bool.and_eq_true,
      decide_eq_true_eq, beq_iff_eq] using hxy

-- C9 witness: the grouping clause applied on a concrete snapshot.
theorem handleGetSellers_spec_witness :
    ∃ s ∈ handleGetSellers exDb 0, s.name = exChar.name :=
  (handleGetSellers_spec exDb 0).2.1 exAuction (by decide) (by decide)
    exChar (by decide)
